import Mathlib

/-!
# Verification of the remmitt batch fund-distribution engine

Shallow embedding of the repository's batch-transfer core:

* `BatchTransfer.sol` — the Settlement Engine (`batchSend`, `estimateGas`,
  `getBatchStatus`, `MAX_RECIPIENTS`, `emergencyWithdraw`), modelled as a
  state transition on an ERC20-style token ledger with explicit execution
  context (`msg.sender`, `block.timestamp`, `block.number`).
* `batch-contract.ts` — the client-side helpers (`validateBatchTransfer`,
  `estimateBatchGas`, `getBatchTransferCalldata`, `executeBatchTransfer`).

Machine integers are `Nat` with explicit `% 2^256` / bound checks where
Solidity 0.8 checked arithmetic matters; reverts and thrown errors are
`Except` / `Option`.
-/

namespace Remmitt

/-- Account identifiers; `0` is the zero address. -/
abbrev Addr := Nat

/-- `2^256`, the modulus of Solidity `uint256` arithmetic. -/
def UINT256 : Nat := 2 ^ 256

/-- State of the (single) ERC20 funding token: balances, allowances
(`alw owner spender`), and the token's blocklist (`blocked a = true`
makes transfers touching `a` revert — the spec's example of a
substrate-level transfer failure). -/
structure Token where
  bal : Addr → Nat
  alw : Addr → Addr → Nat
  blocked : Addr → Bool

/-- Debit `amt` at `src` then credit it at `dst` (callers guard `amt ≤ b src`). -/
def moveBal (b : Addr → Nat) (src dst : Addr) (amt : Nat) : Addr → Nat :=
  fun a =>
    if a = dst then (if a = src then b a - amt else b a) + amt
    else if a = src then b a - amt else b a

/-- ERC20 `transfer` as the engine observes it: succeeds exactly when the
source balance suffices and neither endpoint is blocklisted; a failing
transfer reverts (`none`). The Solidity side treats a `false` return as a
revert too (`if (!transfer(...)) revert TransferFailed()`), so a single
failure mode is faithful. -/
def Token.transfer (t : Token) (src dst : Addr) (amt : Nat) : Option Token :=
  if t.blocked src || t.blocked dst then none
  else if amt ≤ t.bal src then
    some { t with bal := moveBal t.bal src dst amt }
  else none

/-- ERC20 `transferFrom` invoked by `spender`: additionally requires and
consumes allowance `alw src spender`. -/
def Token.transferFrom (t : Token) (spender src dst : Addr) (amt : Nat) :
    Option Token :=
  if t.blocked src || t.blocked dst then none
  else if amt ≤ t.alw src spender ∧ amt ≤ t.bal src then
    some { t with
      bal := moveBal t.bal src dst amt
      alw := fun o s => if o = src ∧ s = spender then t.alw o s - amt else t.alw o s }
  else none

/-- Execution context of one invocation: `block.timestamp`, `block.number`,
`msg.sender`. -/
structure Ctx where
  timestamp : Nat
  blockNumber : Nat
  sender : Addr

/-- The contract's custom errors (`BatchTransfer.sol`), plus the
Solidity 0.8 checked-arithmetic panic raised by `totalAmount += amounts[i]`
on overflow. -/
inductive BatchErr
  | ArraysLengthMismatch
  | ZeroAddress
  | ZeroAmount
  | TransferFailed
  | InsufficientAllowance
  | NotOwner
  | ArithmeticOverflow
deriving DecidableEq, Repr

/-- Big-endian byte string of `n % 256^w`, `w` bytes wide (the building
block of `abi.encodePacked`). -/
def bytesBE : Nat → Nat → List Nat
  | 0, _ => []
  | w + 1, n => bytesBE w (n / 256) ++ [n % 256]

/-- One 32-byte ABI word. -/
def word (n : Nat) : List Nat := bytesBE 32 n

/-- `abi.encodePacked(block.timestamp, msg.sender, token, recipients.length,
block.number)` — the preimage of the batch identifier: uint256 ‖ address
(20 bytes) ‖ address ‖ uint256 ‖ uint256. -/
def batchIdPreimage (ts : Nat) (sender token : Addr) (count bn : Nat) :
    List Nat :=
  word ts ++ bytesBE 20 sender ++ bytesBE 20 token ++ word count ++ word bn

/-- The validation-and-total loop of `batchSend` (source lines 83–88) over
the paired arrays: per index, zero recipient reverts `ZeroAddress`, zero
amount reverts `ZeroAmount`, and the checked `totalAmount += amounts[i]`
panics when the running total would reach `2^256`. -/
def collectTotal : List (Addr × Nat) → Nat → Except BatchErr Nat
  | [], acc => .ok acc
  | (r, a) :: rest, acc =>
    if r = 0 then .error .ZeroAddress
    else if a = 0 then .error .ZeroAmount
    else if UINT256 ≤ acc + a then .error .ArithmeticOverflow
    else collectTotal rest (acc + a)

/-- The distribution loop of `batchSend` (source lines 114–119): pay each
recipient in order from the holding identity `c`; the first failing
`transfer` reverts the whole call with `TransferFailed`. -/
def distribute (c : Addr) : Token → List (Addr × Nat) → Except BatchErr Token
  | t, [] => .ok t
  | t, (r, a) :: rest =>
    match t.transfer c r a with
    | some t1 => distribute c t1 rest
    | none => .error .TransferFailed

/-- `BatchTransfer.batchSend(token, recipients, amounts)` executed by
`ctx.sender` against ledger `t`, with `this` the engine's holding identity
and `H` the (fixed but arbitrary) keccak-256 modelled as a function of the
packed preimage. Returns the post-state and the `bytes32 batchId` on
success, the revert error otherwise. -/
def batchSend (H : List Nat → Nat) (ctx : Ctx) (this : Addr) (t : Token)
    (token : Addr) (recipients : List Addr) (amounts : List Nat) :
    Except BatchErr (Token × Nat) :=
  if recipients.length ≠ amounts.length then .error .ArraysLengthMismatch
  else if recipients.length = 0 then .error .ZeroAmount
  else
    match collectTotal (recipients.zip amounts) 0 with
    | .error e => .error e
    | .ok totalAmount =>
      let batchId := H (batchIdPreimage ctx.timestamp ctx.sender token
        recipients.length ctx.blockNumber)
      if t.alw ctx.sender this < totalAmount then .error .InsufficientAllowance
      else
        match t.transferFrom this ctx.sender this totalAmount with
        | none => .error .TransferFailed
        | some t1 =>
          match distribute this t1 (recipients.zip amounts) with
          | .error e => .error e
          | .ok t2 => .ok (t2, batchId)

/-- Transaction semantics of the substrate: a revert rolls the ledger back
to the pre-state, a committed call leaves the post-state. -/
def runBatchSend (H : List Nat → Nat) (ctx : Ctx) (this : Addr) (t : Token)
    (token : Addr) (recipients : List Addr) (amounts : List Nat) : Token :=
  match batchSend H ctx this t token recipients amounts with
  | .ok (t2, _) => t2
  | .error _ => t

/-- `BatchTransfer.estimateGas` (Solidity, `uint256` checked arithmetic):
`50000 + recipientCount * 35000`, panicking (`none`) if either the
multiplication or the addition reaches `2^256`. -/
def estimateGas (recipientCount : Nat) : Option Nat :=
  if UINT256 ≤ recipientCount * 35000 then none
  else if UINT256 ≤ 50000 + recipientCount * 35000 then none
  else some (50000 + recipientCount * 35000)

/-- `BatchTransfer.getBatchStatus`: ignores its argument and returns
`true`. -/
def getBatchStatus (batchId : Nat) : Bool :=
  true

/-- `BatchTransfer.MAX_RECIPIENTS()`. -/
def MAX_RECIPIENTS : Nat := 200

/-- The engine's only storage: the deploying identity, captured by the
constructor (`owner = msg.sender`) and immutable thereafter. -/
structure Engine where
  owner : Addr

/-- The constructor: the deployer becomes the owner. -/
def deployEngine (deployer : Addr) : Engine := ⟨deployer⟩

/-- `BatchTransfer.emergencyWithdraw(token, amount)` called by `caller`:
only the owner passes the gate; then the token pays `amount` from the
holding identity `this` to the caller. The source ignores the boolean
result of `transfer`, so only a token-level revert (modelled by `none`)
aborts the call. -/
def emergencyWithdraw (eng : Engine) (this caller : Addr) (t : Token)
    (amount : Nat) : Except BatchErr Token :=
  if caller ≠ eng.owner then .error .NotOwner
  else
    match t.transfer this caller amount with
    | some t1 => .ok t1
    | none => .error .TransferFailed

/-- Transaction semantics for `emergencyWithdraw`. -/
def runEmergencyWithdraw (eng : Engine) (this caller : Addr) (t : Token)
    (amount : Nat) : Token :=
  match emergencyWithdraw eng this caller t amount with
  | .ok t1 => t1
  | .error _ => t

/-! ## Client-side library (`batch-contract.ts`) -/

/-- The failure classes of `validateBatchTransfer`, one per distinct error
string of the source (see `ValidationError.message`). -/
inductive ValidationError
  | EmptyBatch
  | ArityMismatch
  | TooManyRecipients
  | InvalidRecipient (i : Nat)
  | InvalidAmount (i : Nat)
deriving DecidableEq, Repr

/-- The exact error strings the source returns. -/
def ValidationError.message : ValidationError → String
  | .EmptyBatch => "At least one recipient is required"
  | .ArityMismatch => "Recipients and amounts must have the same length"
  | .TooManyRecipients => "Maximum 200 recipients per batch"
  | .InvalidRecipient i => "Invalid recipient address at index " ++ toString i
  | .InvalidAmount i => "Invalid amount at index " ++ toString i

/-- The 40-zero-digit hex address the validator compares against. -/
def zeroAddressHex : String := "0x0000000000000000000000000000000000000000"

/-- `!recipients[i] || recipients[i] === "0x00…00"`: a falsy (empty) entry
or the zero address. -/
def badRecipient (r : String) : Bool :=
  r.isEmpty || r == zeroAddressHex

/-- `amounts[i] <= BigInt(0)`. -/
def badAmount (a : Int) : Bool :=
  a ≤ 0

/-- The index loop of `validateBatchTransfer` over the paired arrays
(lengths are equal by the time it runs): at each index the recipient check
runs before the amount check. -/
def validateLoop : Nat → List (String × Int) → Option ValidationError
  | _, [] => none
  | i, (r, a) :: rest =>
    if badRecipient r then some (.InvalidRecipient i)
    else if badAmount a then some (.InvalidAmount i)
    else validateLoop (i + 1) rest

/-- `validateBatchTransfer(recipients, amounts)`: `none` is the source's
`{ valid: true }`, `some e` its `{ valid: false, error: e.message }`.
Source order: empty check, then length mismatch, then the 200 cap, then
the per-index loop. -/
def validateBatchTransfer (recipients : List String) (amounts : List Int) :
    Option ValidationError :=
  if recipients.length = 0 then some .EmptyBatch
  else if recipients.length ≠ amounts.length then some .ArityMismatch
  else if 200 < recipients.length then some .TooManyRecipients
  else validateLoop 0 (recipients.zip amounts)

/-- Modelled from the amended claim (for comparison with
`validateBatchTransfer`): the same three prefix guards, then one
left-to-right search for the least failing index, at which the
recipient check is reported in preference to the amount check. -/
def validateFirstFailure (recipients : List String) (amounts : List Int) :
    Option ValidationError :=
  if recipients.length = 0 then some .EmptyBatch
  else if recipients.length ≠ amounts.length then some .ArityMismatch
  else if 200 < recipients.length then some .TooManyRecipients
  else
    match List.findIdx? (fun p => badRecipient p.1 || badAmount p.2)
        (recipients.zip amounts) with
    | none => none
    | some i =>
      match (recipients.zip amounts)[i]? with
      | some p =>
        if badRecipient p.1 then some (.InvalidRecipient i)
        else some (.InvalidAmount i)
      | none => none

/-- `calculateTotalAmount`: left fold of bigint addition over `amounts`. -/
def calculateTotalAmount (amounts : List Int) : Int :=
  amounts.foldl (· + ·) 0

/-- `estimateBatchGas(recipientCount)` (TypeScript): `50000 +
recipientCount * 35000`. JavaScript numbers represent these products
exactly for every `u32` count, so plain `Nat` is faithful on that range. -/
def estimateBatchGas (recipientCount : Nat) : Nat :=
  50000 + recipientCount * 35000

/-! ### keccak-256

viem derives the function selector as the first 4 bytes of keccak-256 of
the canonical signature string, so the hash is part of the encoder and is
embedded here in full: keccak-f[1600] on 25 lanes of 64 bits, rate 1088,
multi-rate padding `0x01 … 0x80` (the pre-NIST padding Ethereum uses).
The implementation is validated below against published vectors
(`keccak256_nil_vector`, `keccak256_transfer_selector_vector`). -/

/-- `2^64`, the lane modulus of keccak-f[1600]. -/
def UINT64 : Nat := 2 ^ 64

/-- 64-bit left rotation. -/
def rotl64 (x n : Nat) : Nat :=
  ((x <<< n) % UINT64) ||| (x >>> (64 - n))

/-- One step of the degree-8 LFSR (`x^8 + x^6 + x^5 + x^4 + 1`) that
generates the keccak round-constant bits. -/
def lfsrNext (R : Nat) : Nat :=
  ((R * 2) % 256) ^^^ (if 128 ≤ R then 0x71 else 0)

/-- Consume 7 LFSR bits for one round constant, bit `j` landing at bit
position `2^j - 1` of the lane. -/
def rcOfRound (p : Nat × List Nat) (_ : Nat) : Nat × List Nat :=
  let inner := (List.range 7).foldl
    (fun (q : Nat × Nat) j =>
      (lfsrNext q.1, q.2 + (q.1 % 2) * 2 ^ (2 ^ j - 1)))
    (p.1, 0)
  (inner.1, p.2 ++ [inner.2])

/-- The 24 round constants of keccak-f[1600], generated from LFSR state 1. -/
def keccakRC : List Nat :=
  ((List.range 24).foldl rcOfRound (1, [])).2

/-- One step of the rho-offset walk: lane `(x, y)` receives the triangular
number `(t+1)(t+2)/2 mod 64` and the walk moves to `(y, (2x+3y) mod 5)`. -/
def keccakRhoStep (p : (Nat × Nat) × (Nat → Nat)) (t : Nat) :
    (Nat × Nat) × (Nat → Nat) :=
  let x := p.1.1
  let y := p.1.2
  let f := p.2
  ((y, (2 * x + 3 * y) % 5),
    fun i => if i = x + 5 * y then ((t + 1) * (t + 2) / 2) % 64 else f i)

/-- The rho rotation offsets indexed by lane `x + 5y`, generated by the
24-step walk from lane `(1, 0)` (lane `(0, 0)` keeps offset 0). -/
def keccakRho : List Nat :=
  List.ofFn (fun i : Fin 25 =>
    ((List.range 24).foldl keccakRhoStep ((1, 0), fun _ => 0)).2 i.1)

/-- The theta step: column parities folded into every lane. -/
def keccakTheta (A : List Nat) : List Nat :=
  let C := List.ofFn (fun x : Fin 5 =>
    A.getD x.1 0 ^^^ A.getD (x.1 + 5) 0 ^^^ A.getD (x.1 + 10) 0 ^^^
      A.getD (x.1 + 15) 0 ^^^ A.getD (x.1 + 20) 0)
  let D := List.ofFn (fun x : Fin 5 =>
    C.getD ((x.1 + 4) % 5) 0 ^^^ rotl64 (C.getD ((x.1 + 1) % 5) 0) 1)
  List.ofFn (fun i : Fin 25 => A.getD i.1 0 ^^^ D.getD (i.1 % 5) 0)

/-- The combined rho–pi step: destination lane `(X, Y)` takes the rotated
source lane `((X + 3Y) mod 5, X)`. -/
def keccakRhoPi (A : List Nat) : List Nat :=
  List.ofFn (fun j : Fin 25 =>
    let src := (j.1 % 5 + 3 * (j.1 / 5)) % 5 + 5 * (j.1 % 5)
    rotl64 (A.getD src 0) (keccakRho.getD src 0))

/-- The chi step: the row-wise nonlinear mix. -/
def keccakChi (A : List Nat) : List Nat :=
  List.ofFn (fun j : Fin 25 =>
    let x := j.1 % 5
    let y := j.1 / 5
    A.getD j.1 0 ^^^
      ((A.getD ((x + 1) % 5 + 5 * y) 0 ^^^ 0xffffffffffffffff) &&&
        A.getD ((x + 2) % 5 + 5 * y) 0))

/-- One round: theta, rho–pi, chi, then the round constant into lane 0. -/
def keccakRound (A : List Nat) (rc : Nat) : List Nat :=
  let B := keccakChi (keccakRhoPi (keccakTheta A))
  B.set 0 (B.getD 0 0 ^^^ rc)

/-- The full 24-round keccak-f[1600] permutation. -/
def keccakF (A : List Nat) : List Nat :=
  keccakRC.foldl keccakRound A

/-- Multi-rate padding to a whole number of 136-byte blocks: `0x01`, zero
fill, final byte `0x80` (merged into `0x81` when one byte remains). -/
def keccakPad (msg : List Nat) : List Nat :=
  let padLen := 136 - msg.length % 136
  if padLen = 1 then msg ++ [0x81]
  else msg ++ [0x01] ++ List.replicate (padLen - 2) 0 ++ [0x80]

/-- A 64-bit lane from 8 little-endian bytes. -/
def bytesToLaneLE (bs : List Nat) : Nat :=
  bs.foldr (fun b acc => acc * 256 + b) 0

/-- XOR one 136-byte block into the first 17 lanes, then permute. -/
def absorbBlock (A : List Nat) (block : List Nat) : List Nat :=
  let lanes := List.ofFn (fun i : Fin 17 =>
    bytesToLaneLE ((block.drop (8 * i.1)).take 8))
  keccakF (List.ofFn (fun j : Fin 25 =>
    if j.1 < 17 then A.getD j.1 0 ^^^ lanes.getD j.1 0 else A.getD j.1 0))

/-- Absorb the padded message block by block (the fuel argument only
bounds the recursion; callers pass at least the byte count). -/
def absorbAll : Nat → List Nat → List Nat → List Nat
  | 0, A, _ => A
  | _ + 1, A, [] => A
  | n + 1, A, bs => absorbAll n (absorbBlock A (bs.take 136)) (bs.drop 136)

/-- 8 little-endian bytes of one lane. -/
def laneToBytesLE (x : Nat) : List Nat :=
  List.ofFn (fun i : Fin 8 => (x >>> (8 * i.1)) % 256)

/-- keccak-256: absorb, then squeeze the first 32 bytes (4 lanes). -/
def keccak256 (msg : List Nat) : List Nat :=
  ((absorbAll (msg.length + 136) (List.replicate 25 0)
    (keccakPad msg)).take 4).map laneToBytesLE |>.flatten

/-- The byte sequence of an ASCII string. -/
def asciiBytes (s : String) : List Nat :=
  s.toList.map (fun c => c.toNat % 256)

/-- The 4-byte function selector viem prepends: the first 4 bytes of
keccak-256 of the canonical signature
`"batchSend(address,address[],uint256[])"`.  Its value is `0x19648bed`
(proved below); the `0x3a7fec06` asserted by the repository's test and the
spec's selector table is not the keccak image of this signature. -/
def batchSendSelector : List Nat :=
  (keccak256 (asciiBytes "batchSend(address,address[],uint256[])")).take 4

/-- `getBatchTransferCalldata(token, recipients, amounts)`: throws (`none`)
on a length mismatch, otherwise viem's `encodeFunctionData` — the selector
followed by standard ABI encoding of `(address, address[], uint256[])`:
a 3-word head (token, offset of each dynamic array) and the two
length-prefixed tails of 32-byte words. -/
def getBatchTransferCalldata (token : Addr) (recipients : List Addr)
    (amounts : List Nat) : Option (List Nat) :=
  if recipients.length ≠ amounts.length then none
  else some (batchSendSelector
    ++ word token
    ++ word 0x60
    ++ word (0x60 + 32 * (1 + recipients.length))
    ++ word recipients.length
    ++ (recipients.map word).flatten
    ++ word amounts.length
    ++ (amounts.map word).flatten)

/-! ## Dispatch Adapter (`executeBatchTransfer`) -/

/-- `BATCH_CONTRACT_ADDRESSES[chainId] || ""`: only Base Sepolia (84532)
is populated. -/
def getBatchContractAddress (chainId : Nat) : String :=
  if chainId = 84532 then "0xca60bFd1D0eAfDf051885221ec4DF0510ceee944" else ""

/-- `isBatchContractDeployed()`. -/
def isBatchContractDeployed (chainId : Nat) : Bool :=
  getBatchContractAddress chainId ≠ "" &&
    getBatchContractAddress chainId ≠ zeroAddressHex

/-- Value of a hex digit character (0 for anything else). -/
def hexDigitVal (c : Char) : Nat :=
  if '0'.toNat ≤ c.toNat ∧ c.toNat ≤ '9'.toNat then c.toNat - '0'.toNat
  else if 'a'.toNat ≤ c.toNat ∧ c.toNat ≤ 'f'.toNat then c.toNat - 'a'.toNat + 10
  else if 'A'.toNat ≤ c.toNat ∧ c.toNat ≤ 'F'.toNat then c.toNat - 'A'.toNat + 10
  else 0

/-- Numeric value of a `0x…` hex address string. -/
def hexToNat (s : String) : Nat :=
  (s.drop 2).foldl (fun acc c => acc * 16 + hexDigitVal c) 0

/-- Lower-case hex digit character for `n < 16`. -/
def hexDigitChar (n : Nat) : Char :=
  if n < 10 then Char.ofNat (48 + n) else Char.ofNat (87 + n)

/-- `Buffer.from(s).toString("hex")`: two hex digits per ASCII byte. -/
def asciiHex (s : String) : String :=
  s.foldl (fun acc c =>
    (acc.push (hexDigitChar (c.toNat / 16))).push (hexDigitChar (c.toNat % 16))) ""

/-- The arguments of one submission call: `{ to: contractAddress, data:
callData }` (`to` is a Lean keyword, hence `toAddr`). -/
structure SendCall where
  toAddr : String
  data : List Nat

/-- The untyped Xellar SDK client as the adapter probes it: each of the
three known capability shapes is either absent or a function from the
call to a transaction hash (`wallet.sendTransaction` and `account.send`
return `result?.hash`, which may itself be missing). -/
structure XellarClient where
  contractSend : Option (SendCall → String)
  walletSendTransaction : Option (SendCall → Option String)
  accountSend : Option (SendCall → Option String)

/-- `BatchTransferResult` of the source. -/
structure BatchTransferResult where
  batchId : String
  txHash : String
  totalAmount : String
  recipientCount : Nat
  success : Bool
  error : Option String
deriving DecidableEq, Repr

/-- One recipient parameter of `executeBatchTransfer`. -/
structure RecipientParam where
  id : String
  name : String
  walletAddress : String

/-- The early-return failure shape (`success: false`, zeroed fields). -/
def mkFailResult (msg : String) : BatchTransferResult :=
  { batchId := "", txHash := "", totalAmount := "0", recipientCount := 0,
    success := false, error := some msg }

/-- The post-submission success shape: `batchId = txHash ||
"0x" + hex(Date.now())`, `success: true`. -/
def mkOkResult (now : Nat) (txHash : String) (totalAmount : Int) (n : Nat) :
    BatchTransferResult :=
  { batchId := if txHash = "" then "0x" ++ asciiHex (toString now) else txHash,
    txHash := txHash, totalAmount := toString totalAmount,
    recipientCount := n, success := true, error := none }

/-- `executeBatchTransfer(xellarClient, params)`. The impure primitives are
explicit arguments: `now` is `Date.now()` and `randHex` the
`"0x" + Math.random()…` mock hash; `amountsBigInt` is the amount list after
the source's `BigInt(Math.floor(a * 1_000_000))` conversion (the
floating-point conversion itself is outside the model). Structure: deployed
check, validation, total, encoding, then ordered capability probing —
`contract.send`, `wallet.sendTransaction`, `account.send` — and, when none
is present, the source's mock-success fallback. -/
def executeBatchTransfer (now : Nat) (randHex : String) (chainId : Nat)
    (usdcAddress : String) (client : XellarClient)
    (recipients : List RecipientParam) (amountsBigInt : List Int) :
    BatchTransferResult :=
  let contractAddress := getBatchContractAddress chainId
  if ¬ isBatchContractDeployed chainId then
    mkFailResult "Batch contract not deployed on current network"
  else
    let recipientAddresses := recipients.map (·.walletAddress)
    match validateBatchTransfer recipientAddresses amountsBigInt with
    | some e => mkFailResult e.message
    | none =>
      let totalAmount := calculateTotalAmount amountsBigInt
      match getBatchTransferCalldata (hexToNat usdcAddress)
          (recipientAddresses.map hexToNat) (amountsBigInt.map Int.toNat) with
      | none =>
        -- the encoder's throw lands in the source's catch-all
        mkFailResult "Recipients and amounts arrays must have the same length"
      | some callData =>
        match client.contractSend with
        | some f => mkOkResult now (f ⟨contractAddress, callData⟩)
            totalAmount recipients.length
        | none =>
          match client.walletSendTransaction with
          | some f => mkOkResult now ((f ⟨contractAddress, callData⟩).getD "")
              totalAmount recipients.length
          | none =>
            match client.accountSend with
            | some f => mkOkResult now ((f ⟨contractAddress, callData⟩).getD "")
                totalAmount recipients.length
            | none =>
              -- the mock-success fallback of the source
              { batchId := "batch_" ++ toString now,
                txHash := randHex,
                totalAmount := toString totalAmount,
                recipientCount := recipients.length,
                success := true,
                error := some "SDK method not found - mock transaction" }

/-! ## Derived quantities used in the statements -/

/-- Amount paid to `x` by a disbursement list: the sum of the amounts at
the positions whose recipient is `x` (duplicates contribute separately). -/
def paidTo : List (Addr × Nat) → Addr → Nat
  | [], _ => 0
  | (r, a) :: rest, x => (if r = x then a else 0) + paidTo rest x

/-! ## Concrete fixtures for witnesses and counterexamples -/

/-- A stand-in for keccak-256 in concrete runs. -/
def hSum : List Nat → Nat := fun l => l.sum

/-- A concrete execution context: timestamp 1000, block 7, sender 1. -/
def ctxW : Ctx := ⟨1000, 7, 1⟩

/-- Ledger: sender 1 holds 12 and has approved 12 to the engine at 10. -/
def tok0 : Token :=
  { bal := fun a => if a = 1 then 12 else 0,
    alw := fun o s => if o = 1 ∧ s = 10 then 12 else 0,
    blocked := fun _ => false }

/-- Ledger: sender 1 holds 5, approved 5; used for the self-payment run. -/
def tokSelf : Token :=
  { bal := fun a => if a = 1 then 5 else 0,
    alw := fun o s => if o = 1 ∧ s = 10 then 5 else 0,
    blocked := fun _ => false }

/-- Ledger like `tok0` but with recipient 3 blocklisted by the token. -/
def tokBlk : Token :=
  { bal := fun a => if a = 1 then 12 else 0,
    alw := fun o s => if o = 1 ∧ s = 10 then 12 else 0,
    blocked := fun a => a = 3 }

/-- Ledger funding a 201-recipient batch: sender 1 holds 201, approved 201. -/
def tok201 : Token :=
  { bal := fun a => if a = 1 then 201 else 0,
    alw := fun o s => if o = 1 ∧ s = 10 then 201 else 0,
    blocked := fun _ => false }

/-- 201 distinct non-zero recipients. -/
def recips201 : List Addr := (List.range 201).map (fun i => i + 100)

/-- 201 unit amounts. -/
def amts201 : List Nat := List.replicate 201 1

/-- The committed result of the two-recipient reference run on `tok0`. -/
def resW : Token × Nat :=
  ((batchSend hSum ctxW 10 tok0 5 [2, 3] [5, 7]).toOption).getD (tok0, 0)

/-- Ledger where the holding identity 10 holds 9 stray tokens. -/
def tokHold : Token :=
  { bal := fun a => if a = 10 then 9 else 0,
    alw := fun _ _ => 0,
    blocked := fun _ => false }

/-- The ledger after the deployer (owner 1) withdraws 4 from `tokHold`. -/
def tokHoldAfter : Token :=
  (emergencyWithdraw (deployEngine 1) 10 1 tokHold 4).toOption.getD tokHold

/-- A second committed run on `tok0` in the same context: same recipient
count as `resW` but different recipients and amounts. -/
def resW2 : Token × Nat :=
  ((batchSend hSum ctxW 10 tok0 5 [4, 8] [1, 2]).toOption).getD (tok0, 0)

/-! # Theorems -/

/-- **C2** Atomicity: whenever `batchSend` fails — validation, allowance,
collection, or any single disbursement after collection — the invocation
terminates with an error and, under the substrate's transaction semantics
(`runBatchSend`), the ledger (every balance: sender, holding identity,
every recipient) is exactly the pre-state; no partially-distributed state
is observable. -/
theorem batchSend_atomicity (H : List Nat → Nat) (ctx : Ctx) (this : Addr)
    (t : Token) (token : Addr) (recipients : List Addr) (amounts : List Nat)
    (e : BatchErr)
    (h : batchSend H ctx this t token recipients amounts = .error e) :
    runBatchSend H ctx this t token recipients amounts = t := by
  unfold runBatchSend
  rw [h]

/-- Witness for C2: on `tokBlk` recipient 3 is blocklisted, so the second
disbursement fails after the collection `transferFrom` has already
succeeded; the call reverts with `TransferFailed` and the ledger is the
pre-state. -/
theorem batchSend_atomicity_witness :
    batchSend hSum ctxW 10 tokBlk 5 [2, 3] [5, 7] = .error .TransferFailed ∧
    runBatchSend hSum ctxW 10 tokBlk 5 [2, 3] [5, 7] = tokBlk :=
  ⟨rfl, batchSend_atomicity hSum ctxW 10 tokBlk 5 [2, 3] [5, 7] .TransferFailed rfl⟩

set_option maxRecDepth 1000000 in
/-- **C3** (evidence of the code bug): `batchSend` performs no
recipient-count check — a 201-recipient batch that is otherwise valid
(equal lengths, distinct non-zero recipients, all amounts positive,
sufficient allowance and balance) is *not* rejected: it commits and moves
balances (recipient 100 gains its unit), even though `MAX_RECIPIENTS()`
reports 200. -/
theorem batchSend_accepts_201_recipients :
    (batchSend hSum ctxW 10 tok201 5 recips201 amts201).isOk = true ∧
    recips201.length = MAX_RECIPIENTS + 1 ∧
    (runBatchSend hSum ctxW 10 tok201 5 recips201 amts201).bal 100 =
      tok201.bal 100 + 1 := by
  refine ⟨by decide, by decide, by decide⟩

/-- **C5** (evidence of the code bug): when none of the three probed
capability shapes (`contract.send`, `wallet.sendTransaction`,
`account.send`) is present on the host client, `executeBatchTransfer`
returns a fabricated success — `success = true` with a mock transaction
hash — instead of a `NoCapability` error. -/
theorem executeBatchTransfer_fabricates_success :
    (executeBatchTransfer 111 "0xdead" 84532 "0xaaaa" ⟨none, none, none⟩
      [⟨"r1", "n1", "0x1111"⟩] [5]).success = true ∧
    (executeBatchTransfer 111 "0xdead" 84532 "0xaaaa" ⟨none, none, none⟩
      [⟨"r1", "n1", "0x1111"⟩] [5]).error =
      some "SDK method not found - mock transaction" := by
  refine ⟨rfl, rfl⟩

/-- **C6** Cost estimator: `estimateBatchGas n = 50000 + n * 35000` for
every count `n`, with `estimateBatchGas 0 = 50000` and the per-recipient
increment 35000; the Solidity `estimateGas` agrees (no `uint256` overflow)
on every `u32` count. -/
theorem estimateBatchGas_formula (n : Nat) :
    estimateBatchGas n = 50000 + n * 35000 ∧
    estimateBatchGas 0 = 50000 ∧
    estimateBatchGas (n + 1) = estimateBatchGas n + 35000 ∧
    (n < 2 ^ 32 → estimateGas n = some (50000 + n * 35000)) := by
  refine ⟨rfl, rfl, by unfold estimateBatchGas; ring, fun hn => ?_⟩
  have hmul : n * 35000 < UINT256 := by
    calc n * 35000 < 2 ^ 32 * 35000 := by
          exact (Nat.mul_lt_mul_right (by norm_num)).mpr hn
      _ < UINT256 := by unfold UINT256; norm_num
  unfold estimateGas
  rw [if_neg (by omega), if_neg (by unfold UINT256 at hmul ⊢; omega)]

/-- Witness for C6 at `n = 3`. -/
theorem estimateBatchGas_formula_witness :
    estimateGas 3 = some (50000 + 3 * 35000) :=
  (estimateBatchGas_formula 3).2.2.2 (by norm_num)

/-! ## Ledger-step inversion lemmas -/

/-- A balance untouched by `moveBal`. -/
theorem moveBal_ne_ne (b : Addr → Nat) (src dst x : Addr) (amt : Nat)
    (hs : x ≠ src) (hd : x ≠ dst) : moveBal b src dst amt x = b x := by
  unfold moveBal
  simp [hs, hd]

/-- The credited side of `moveBal`. -/
theorem moveBal_dst (b : Addr → Nat) (src dst : Addr) (amt : Nat)
    (h : dst ≠ src) : moveBal b src dst amt dst = b dst + amt := by
  unfold moveBal
  simp [h]

/-- The debited side of `moveBal`, phrased without truncated subtraction. -/
theorem moveBal_src_add (b : Addr → Nat) (src dst : Addr) (amt : Nat)
    (h : src ≠ dst) (hle : amt ≤ b src) :
    moveBal b src dst amt src + amt = b src := by
  unfold moveBal
  rw [if_neg h, if_pos rfl]
  omega

/-- A self-move leaves every balance unchanged. -/
theorem moveBal_self (b : Addr → Nat) (src : Addr) (amt : Nat)
    (hle : amt ≤ b src) (x : Addr) : moveBal b src src amt x = b x := by
  unfold moveBal
  by_cases h : x = src
  · subst h
    simp
    omega
  · simp [h]

/-- Inversion of a successful `transfer`. -/
theorem transfer_some (t t' : Token) (src dst : Addr) (amt : Nat)
    (h : t.transfer src dst amt = some t') :
    amt ≤ t.bal src ∧ t'.bal = moveBal t.bal src dst amt ∧
    t'.alw = t.alw ∧ t'.blocked = t.blocked := by
  unfold Token.transfer at h
  split at h
  · exact Option.noConfusion h
  · split at h
    · obtain rfl := Option.some.inj h
      exact ⟨by assumption, rfl, rfl, rfl⟩
    · exact Option.noConfusion h

/-- Inversion of a successful `transferFrom`. -/
theorem transferFrom_some (t t' : Token) (sp src dst : Addr) (amt : Nat)
    (h : t.transferFrom sp src dst amt = some t') :
    amt ≤ t.alw src sp ∧ amt ≤ t.bal src ∧
    t'.bal = moveBal t.bal src dst amt ∧ t'.blocked = t.blocked := by
  unfold Token.transferFrom at h
  split at h
  · exact Option.noConfusion h
  · split at h
    · obtain rfl := Option.some.inj h
      rename_i hcond
      exact ⟨hcond.1, hcond.2, rfl, rfl⟩
    · exact Option.noConfusion h

/-! ## keccak state-size lemmas and vector validation -/

/-- Each keccak round keeps the 25-lane state size. -/
theorem length_keccakRound (A : List Nat) (rc : Nat) :
    (keccakRound A rc).length = 25 := by
  simp [keccakRound, keccakChi]

/-- Folding rounds keeps the 25-lane state size. -/
theorem length_foldl_keccakRound : ∀ (l : List Nat) (A : List Nat),
    A.length = 25 → (l.foldl keccakRound A).length = 25 := by
  intro l
  induction l with
  | nil =>
    intro A h
    exact h
  | cons rc rest ih =>
    intro A h
    exact ih (keccakRound A rc) (length_keccakRound A rc)

/-- Absorbing one block keeps the 25-lane state size. -/
theorem length_absorbBlock (A block : List Nat) :
    (absorbBlock A block).length = 25 := by
  unfold absorbBlock keccakF
  exact length_foldl_keccakRound keccakRC _ (by simp)

/-- Absorbing any message keeps the 25-lane state size. -/
theorem length_absorbAll : ∀ (fuel : Nat) (A bs : List Nat),
    A.length = 25 → (absorbAll fuel A bs).length = 25 := by
  intro fuel
  induction fuel with
  | zero =>
    intro A bs h
    exact h
  | succ n ih =>
    intro A bs h
    cases bs with
    | nil => exact h
    | cons b rest => exact ih _ _ (length_absorbBlock A _)

/-- A keccak-256 digest is 32 bytes. -/
theorem length_keccak256 (msg : List Nat) : (keccak256 msg).length = 32 := by
  unfold keccak256
  rw [List.length_flatten, List.map_map]
  have hcomp : (List.length ∘ laneToBytesLE) = fun _ : Nat => 8 := by
    funext x
    simp [laneToBytesLE]
  rw [hcomp, List.map_const', List.sum_const_nat, List.length_take,
    length_absorbAll _ _ _ (by simp)]
  norm_num

/-- The selector is 4 bytes. -/
theorem length_batchSendSelector : batchSendSelector.length = 4 := by
  unfold batchSendSelector
  rw [List.length_take, length_keccak256]
  norm_num

set_option maxRecDepth 1000000 in
/-- The keccak-256 embedding reproduces the published digest of the empty
message. -/
theorem keccak256_nil_vector :
    keccak256 [] =
      [0xc5, 0xd2, 0x46, 0x01, 0x86, 0xf7, 0x23, 0x3c,
       0x92, 0x7e, 0x7d, 0xb2, 0xdc, 0xc7, 0x03, 0xc0,
       0xe5, 0x00, 0xb6, 0x53, 0xca, 0x82, 0x27, 0x3b,
       0x7b, 0xfa, 0xd8, 0x04, 0x5d, 0x85, 0xa4, 0x70] := by
  decide

set_option maxRecDepth 1000000 in
/-- The keccak-256 embedding reproduces the well-known ERC20
`transfer(address,uint256)` selector `0xa9059cbb`. -/
theorem keccak256_transfer_selector_vector :
    (keccak256 (asciiBytes "transfer(address,uint256)")).take 4 =
      [0xa9, 0x05, 0x9c, 0xbb] := by
  decide

set_option maxRecDepth 1000000 in
/-- **C7 (amended)** Encoding determinism and the fixed selector: equal
argument triples give byte-identical calldata; every produced byte string
starts with the fixed 4-byte `batchSend` selector, the first 4 bytes of
keccak-256 of `"batchSend(address,address[],uint256[])"`; and that
selector is `0x19648bed` — not the `0x3a7fec06` asserted by the spec's
selector table and the repository's test. -/
theorem getBatchTransferCalldata_deterministic_selector :
    (∀ (t₁ t₂ : Addr) (r₁ r₂ : List Addr) (a₁ a₂ : List Nat),
      t₁ = t₂ → r₁ = r₂ → a₁ = a₂ →
      getBatchTransferCalldata t₁ r₁ a₁ = getBatchTransferCalldata t₂ r₂ a₂) ∧
    (∀ (token : Addr) (recipients : List Addr) (amounts : List Nat)
      (bs : List Nat),
      getBatchTransferCalldata token recipients amounts = some bs →
      bs.take 4 = batchSendSelector) ∧
    batchSendSelector = [0x19, 0x64, 0x8b, 0xed] := by
  refine ⟨?_, ?_, by decide⟩
  · rintro t₁ t₂ r₁ r₂ a₁ a₂ rfl rfl rfl
    rfl
  · intro token recipients amounts bs h
    unfold getBatchTransferCalldata at h
    split at h
    · exact Option.noConfusion h
    · obtain rfl := Option.some.inj h
      simp only [List.append_assoc]
      exact List.take_left' length_batchSendSelector

/-- Witness for C7 (amended): the calldata for `(7, [1], [2])` exists and
starts with the selector. -/
theorem getBatchTransferCalldata_selector_witness :
    ((getBatchTransferCalldata 7 [1] [2]).getD []).take 4 = batchSendSelector :=
  getBatchTransferCalldata_deterministic_selector.2.1 7 [1] [2] _ rfl

set_option maxRecDepth 1000000 in
/-- Counterexample to C7 as stated: at the concrete input `(7, [1], [2])`
the encoder's output begins with `0x19648bed`, which is not the claimed
fixed selector `0x3a7fec06`. -/
theorem getBatchTransferCalldata_selector_counterexample :
    ((getBatchTransferCalldata 7 [1] [2]).getD []).take 4 =
      [0x19, 0x64, 0x8b, 0xed] ∧
    ([0x19, 0x64, 0x8b, 0xed] : List Nat) ≠ [0x3a, 0x7f, 0xec, 0x06] := by
  refine ⟨by decide, by decide⟩

/-- **C8** Authorization gate: a caller other than the deploying identity
(the immutable `owner` captured by the constructor) gets `NotOwner` and the
ledger is untouched; a successful owner call moves exactly `amount` from
the holding identity to the owner and touches no other balance. -/
theorem emergencyWithdraw_gate (eng : Engine) (this caller : Addr)
    (t : Token) (amount : Nat) :
    (caller ≠ eng.owner →
      emergencyWithdraw eng this caller t amount = .error .NotOwner ∧
      runEmergencyWithdraw eng this caller t amount = t) ∧
    (∀ t', emergencyWithdraw eng this caller t amount = .ok t' →
      caller = eng.owner ∧
      (this ≠ caller →
        amount ≤ t.bal this ∧
        t'.bal this + amount = t.bal this ∧
        t'.bal caller = t.bal caller + amount ∧
        ∀ x, x ≠ this → x ≠ caller → t'.bal x = t.bal x)) := by
  constructor
  · intro hne
    have he : emergencyWithdraw eng this caller t amount = .error .NotOwner := by
      unfold emergencyWithdraw
      rw [if_pos hne]
    refine ⟨he, ?_⟩
    unfold runEmergencyWithdraw
    rw [he]
  · intro t' h
    unfold emergencyWithdraw at h
    by_cases hco : caller = eng.owner
    · rw [if_neg (by simp [hco])] at h
      refine ⟨hco, ?_⟩
      intro hne
      cases htr : t.transfer this caller amount with
      | none =>
        rw [htr] at h
        exact Except.noConfusion h
      | some t1 =>
        rw [htr] at h
        obtain rfl := Except.ok.inj h
        obtain ⟨hle, hbal, -, -⟩ := transfer_some t t1 this caller amount htr
        refine ⟨hle, ?_, ?_, ?_⟩
        · rw [hbal, moveBal_src_add t.bal this caller amount hne hle]
        · rw [hbal, moveBal_dst t.bal this caller amount (Ne.symm hne)]
        · intro x hx1 hx2
          rw [hbal, moveBal_ne_ne t.bal this caller x amount hx1 hx2]
    · rw [if_pos hco] at h
      exact Except.noConfusion h

/-- Witness for C8: on `tok0` (holding identity 10 funded with 0 — use a
funded holding ledger) the owner receives exactly the requested amount and
a stranger is rejected. -/
theorem emergencyWithdraw_gate_witness :
    (emergencyWithdraw (deployEngine 1) 10 2 tokHold 4 = .error .NotOwner ∧
      runEmergencyWithdraw (deployEngine 1) 10 2 tokHold 4 = tokHold) ∧
    (tokHoldAfter.bal 10 + 4 = tokHold.bal 10 ∧
      tokHoldAfter.bal 1 = tokHold.bal 1 + 4) := by
  refine ⟨(emergencyWithdraw_gate (deployEngine 1) 10 2 tokHold 4).1 (by decide), ?_⟩
  have h := (emergencyWithdraw_gate (deployEngine 1) 10 1 tokHold 4).2
    tokHoldAfter rfl
  have h2 := h.2 (by decide)
  exact ⟨h2.2.1, h2.2.2.1⟩

/-! ## Validator-order lemmas -/

/-- `findIdx?` never reports an index below its start offset. -/
theorem findIdx?_start_le {α : Type} (p : α → Bool) :
    ∀ (l : List α) (s i : Nat), List.findIdx? p l s = some i → s ≤ i := by
  intro l
  induction l with
  | nil =>
    intro s i h
    exact Option.noConfusion h
  | cons x xs ih =>
    intro s i h
    unfold List.findIdx? at h
    split at h
    · have := Option.some.inj h
      omega
    · have := ih (s + 1) i h
      omega

/-- The source's index loop, started at offset `k`, reports exactly the
least failing absolute index — with the recipient check taking precedence
over the amount check only at that same index. -/
theorem validateLoop_eq_findIdx :
    ∀ (l : List (String × Int)) (k : Nat),
    validateLoop k l =
      match List.findIdx? (fun p => badRecipient p.1 || badAmount p.2) l k with
      | none => none
      | some i =>
        match l[i - k]? with
        | some p =>
          if badRecipient p.1 then some (.InvalidRecipient i)
          else some (.InvalidAmount i)
        | none => none := by
  intro l
  induction l with
  | nil =>
    intro k
    rfl
  | cons pr rest ih =>
    intro k
    obtain ⟨r, a⟩ := pr
    by_cases hr : badRecipient r = true
    · simp [validateLoop, List.findIdx?_cons, hr]
    · have hrf : badRecipient r = false := Bool.eq_false_iff.mpr hr
      by_cases ha : badAmount a = true
      · simp [validateLoop, List.findIdx?_cons, hrf, ha]
      · have haf : badAmount a = false := Bool.eq_false_iff.mpr ha
        have hstep : validateLoop k ((r, a) :: rest) =
            if badRecipient r then some (ValidationError.InvalidRecipient k)
            else if badAmount a then some (ValidationError.InvalidAmount k)
            else validateLoop (k + 1) rest := rfl
        have hL : validateLoop k ((r, a) :: rest) = validateLoop (k + 1) rest := by
          rw [hstep, if_neg hr, if_neg ha]
        have hcond : ¬((badRecipient r || badAmount a) = true) := by
          simp [hrf, haf]
        have hR : List.findIdx? (fun p : String × Int =>
            badRecipient p.1 || badAmount p.2) ((r, a) :: rest) k =
            List.findIdx? (fun p : String × Int =>
              badRecipient p.1 || badAmount p.2) rest (k + 1) := by
          simp only [List.findIdx?_cons]
          rw [if_neg hcond]
        rw [hL, hR, ih (k + 1)]
        cases hf : List.findIdx? (fun p : String × Int =>
            badRecipient p.1 || badAmount p.2) rest (k + 1) with
        | none => rfl
        | some i =>
          have hki : k + 1 ≤ i :=
            findIdx?_start_le _ rest (k + 1) i hf
          have hik : i - k = (i - (k + 1)) + 1 := by omega
          simp only [hik, List.getElem?_cons_succ]

/-! ## Conservation lemmas -/

/-- `paidTo` vanishes for anyone who is not a listed recipient. -/
theorem paidTo_eq_zero : ∀ (l : List (Addr × Nat)) (x : Addr),
    x ∉ l.map Prod.fst → paidTo l x = 0 := by
  intro l
  induction l with
  | nil => intro x _; rfl
  | cons pr rest ih =>
    intro x hx
    obtain ⟨r, a⟩ := pr
    unfold paidTo
    have hr : r ≠ x := fun e => hx (by simp [e])
    rw [if_neg hr, ih x (fun hm => hx (by simp [hm]))]

/-- The validation-and-total loop computes the running sum of the
amounts. -/
theorem collectTotal_ok : ∀ (l : List (Addr × Nat)) (acc T : Nat),
    collectTotal l acc = .ok T → T = acc + (l.map Prod.snd).sum := by
  intro l
  induction l with
  | nil =>
    intro acc T h
    obtain rfl := Except.ok.inj h
    simp
  | cons pr rest ih =>
    intro acc T h
    obtain ⟨r, a⟩ := pr
    unfold collectTotal at h
    split at h
    · exact Except.noConfusion h
    split at h
    · exact Except.noConfusion h
    split at h
    · exact Except.noConfusion h
    · have := ih (acc + a) T h
      simp only [List.map_cons, List.sum_cons]
      omega

/-- Balance bookkeeping of a committed distribution loop from the holding
identity `c`: every other account gains exactly what the list pays it, and
`c` pays out the sum of the amounts less what the list pays back to `c`
itself (phrased without truncated subtraction). -/
theorem distribute_ok (c : Addr) : ∀ (l : List (Addr × Nat)) (t t' : Token),
    distribute c t l = .ok t' →
    (∀ x, x ≠ c → t'.bal x = t.bal x + paidTo l x) ∧
    t'.bal c + (l.map Prod.snd).sum = t.bal c + paidTo l c := by
  intro l
  induction l with
  | nil =>
    intro t t' h
    obtain rfl := Except.ok.inj h
    exact ⟨fun x _ => by simp [paidTo], by simp [paidTo]⟩
  | cons pr rest ih =>
    intro t t' h
    obtain ⟨r, a⟩ := pr
    have hps : ∀ x, paidTo ((r, a) :: rest) x =
        (if r = x then a else 0) + paidTo rest x := fun _ => rfl
    unfold distribute at h
    cases htr : t.transfer c r a with
    | none =>
      rw [htr] at h
      exact Except.noConfusion h
    | some t1 =>
      rw [htr] at h
      obtain ⟨hle, hbal, -, -⟩ := transfer_some t t1 c r a htr
      obtain ⟨ih1, ih2⟩ := ih t1 t' h
      by_cases hrc : r = c
      · subst hrc
        have hb : ∀ x, t1.bal x = t.bal x := by
          intro x
          rw [hbal]
          exact moveBal_self t.bal r a hle x
        constructor
        · intro x hx
          rw [ih1 x hx, hb x, hps x, if_neg (fun e => hx e.symm)]
          omega
        · rw [hps r, if_pos rfl]
          simp only [List.map_cons, List.sum_cons]
          have h2 := ih2
          rw [hb r] at h2
          omega
      · constructor
        · intro x hx
          by_cases hxr : x = r
          · subst hxr
            rw [ih1 x hx, hbal, moveBal_dst t.bal c x a hrc, hps x,
              if_pos rfl]
            omega
          · rw [ih1 x hx, hbal, moveBal_ne_ne t.bal c r x a hx hxr, hps x,
              if_neg (fun e => hxr e.symm)]
            omega
        · rw [hps c, if_neg hrc]
          simp only [List.map_cons, List.sum_cons]
          have hsrc : t1.bal c + a = t.bal c := by
            rw [hbal]
            exact moveBal_src_add t.bal c r a (fun e => hrc e.symm) hle
          omega

/-- Summing `paidTo` over the distinct recipients of a disbursement list
recovers the total amount. -/
theorem sum_paidTo_toFinset : ∀ (l : List (Addr × Nat)),
    ∑ x ∈ (l.map Prod.fst).toFinset, paidTo l x = (l.map Prod.snd).sum := by
  intro l
  induction l with
  | nil => simp
  | cons pr rest ih =>
    obtain ⟨r, a⟩ := pr
    simp only [List.map_cons, List.toFinset_cons, List.sum_cons]
    have hsplit : ∀ x, paidTo ((r, a) :: rest) x =
        (if r = x then a else 0) + paidTo rest x := fun _ => rfl
    rw [Finset.sum_congr rfl (fun x _ => hsplit x), Finset.sum_add_distrib,
      Finset.sum_ite_eq (insert r (rest.map Prod.fst).toFinset) r (fun _ => a),
      if_pos (Finset.mem_insert_self r _)]
    congr 1
    by_cases hr : r ∈ (rest.map Prod.fst).toFinset
    · rw [Finset.insert_eq_self.mpr hr]
      exact ih
    · rw [Finset.sum_insert hr,
        paidTo_eq_zero rest r (fun hm => hr (List.mem_toFinset.mpr hm)), ih]
      exact Nat.zero_add _

/-- **C1 (amended)** Conservation of value: on every committed `batchSend`
whose sender is neither the holding identity nor itself a recipient, the
sender's balance drops by exactly `Σ amounts`, every account other than the
sender gains exactly what the batch pays it, and the deltas over the
distinct recipients sum to `Σ amounts`. -/
theorem batchSend_conservation (H : List Nat → Nat) (ctx : Ctx) (this : Addr)
    (t : Token) (token : Addr) (recipients : List Addr) (amounts : List Nat)
    (t' : Token) (bid : Nat)
    (hs : ctx.sender ∉ recipients) (hst : ctx.sender ≠ this)
    (hok : batchSend H ctx this t token recipients amounts = .ok (t', bid)) :
    t.bal ctx.sender = t'.bal ctx.sender + amounts.sum ∧
    (∀ x, x ≠ ctx.sender →
      t'.bal x = t.bal x + paidTo (recipients.zip amounts) x) ∧
    ∑ x ∈ recipients.toFinset, (t'.bal x - t.bal x) = amounts.sum := by
  unfold batchSend at hok
  split at hok
  · exact Except.noConfusion hok
  rename_i hlen'
  have hlen : recipients.length = amounts.length := by omega
  split at hok
  · exact Except.noConfusion hok
  split at hok
  · exact Except.noConfusion hok
  rename_i total hct
  split at hok
  · exact Except.noConfusion hok
  split at hok
  · exact Except.noConfusion hok
  rename_i t1 htf
  split at hok
  · exact Except.noConfusion hok
  rename_i t2 hdist
  have h2t : t2 = t' := congrArg Prod.fst (Except.ok.inj hok)
  rw [h2t] at hdist
  -- facts about the zipped list
  have hfst : (recipients.zip amounts).map Prod.fst = recipients :=
    List.map_fst_zip recipients amounts (le_of_eq hlen)
  have hsnd : (recipients.zip amounts).map Prod.snd = amounts :=
    List.map_snd_zip recipients amounts (le_of_eq hlen.symm)
  have htotal : total = amounts.sum := by
    have := collectTotal_ok (recipients.zip amounts) 0 total hct
    rwa [hsnd, Nat.zero_add] at this
  obtain ⟨-, hbal_le, hbal1, -⟩ :=
    transferFrom_some t t1 this ctx.sender this total htf
  obtain ⟨hd1, hd2⟩ := distribute_ok this (recipients.zip amounts) t1 t' hdist
  have hpaid0 : paidTo (recipients.zip amounts) ctx.sender = 0 :=
    paidTo_eq_zero _ _ (by rwa [hfst])
  -- the sender's balance
  have hsender : t.bal ctx.sender = t'.bal ctx.sender + amounts.sum := by
    have h1 : t'.bal ctx.sender = t1.bal ctx.sender := by
      rw [hd1 ctx.sender hst, hpaid0]
      omega
    have h2 : t1.bal ctx.sender + total = t.bal ctx.sender := by
      rw [hbal1]
      exact moveBal_src_add t.bal ctx.sender this total hst hbal_le
    omega
  -- every non-sender account gains exactly what the batch pays it
  have hgain : ∀ x, x ≠ ctx.sender →
      t'.bal x = t.bal x + paidTo (recipients.zip amounts) x := by
    intro x hx
    by_cases hxthis : x = this
    · subst hxthis
      have hthis1 : t1.bal x = t.bal x + total := by
        rw [hbal1]
        exact moveBal_dst t.bal ctx.sender x total (fun e => hx e)
      have := hd2
      rw [hsnd] at this
      omega
    · rw [hd1 x hxthis, hbal1,
        moveBal_ne_ne t.bal ctx.sender this x total (fun e => hx e) hxthis]
  refine ⟨hsender, hgain, ?_⟩
  -- deltas over the distinct recipients
  have hdelta : ∀ x ∈ recipients.toFinset,
      t'.bal x - t.bal x = paidTo (recipients.zip amounts) x := by
    intro x hxmem
    have hxs : x ≠ ctx.sender := by
      intro e
      exact hs (e ▸ List.mem_toFinset.mp hxmem)
    rw [hgain x hxs]
    omega
  rw [Finset.sum_congr rfl hdelta]
  have := sum_paidTo_toFinset (recipients.zip amounts)
  rwa [hfst, hsnd] at this

/-- Counterexample to C1 as stated: a valid self-paying batch.  Sender 1
sends 5 to itself through `batchSend`; the call commits, `Σ amounts = 5`,
yet the sender's balance is unchanged (`before − after = 0 ≠ 5`). -/
theorem batchSend_conservation_counterexample :
    (batchSend hSum ctxW 10 tokSelf 5 [1] [5]).isOk = true ∧
    tokSelf.bal 1 - (runBatchSend hSum ctxW 10 tokSelf 5 [1] [5]).bal 1 ≠
      ([5] : List Nat).sum := by
  refine ⟨by decide, by decide⟩

/-- Witness for C1 (amended) on the two-recipient reference run: sender 1
pays 12, recipient 2 gains 5 and recipient 3 gains 7. -/
theorem batchSend_conservation_witness :
    tok0.bal 1 = resW.1.bal 1 + ([5, 7] : List Nat).sum ∧
    resW.1.bal 2 = tok0.bal 2 + paidTo ([2, 3].zip [5, 7]) 2 ∧
    ∑ x ∈ ([2, 3] : List Addr).toFinset, (resW.1.bal x - tok0.bal x) =
      ([5, 7] : List Nat).sum := by
  have h := batchSend_conservation hSum ctxW 10 tok0 5 [2, 3] [5, 7]
    resW.1 resW.2 (by decide) (by decide) rfl
  exact ⟨h.1, h.2.1 2 (by decide), h.2.2⟩

/-- **C4 (amended)** Validator check order: `validateBatchTransfer` checks,
short-circuiting on first failure, (1) non-emptiness (`EmptyBatch`),
(2) equal lengths (`ArityMismatch`), (3) the 200 cap
(`TooManyRecipients`), then (4) a single left-to-right pass that reports
the least failing index, with the recipient check preceding the amount
check only at that same index — the behaviour captured by
`validateFirstFailure`. -/
theorem validateBatchTransfer_order (rs : List String) (as : List Int) :
    validateBatchTransfer rs as = validateFirstFailure rs as := by
  unfold validateBatchTransfer validateFirstFailure
  by_cases h0 : rs.length = 0
  · rw [if_pos h0, if_pos h0]
  · rw [if_neg h0, if_neg h0]
    by_cases h1 : rs.length ≠ as.length
    · rw [if_pos h1, if_pos h1]
    · rw [if_neg h1, if_neg h1]
      by_cases h2 : 200 < rs.length
      · rw [if_pos h2, if_pos h2]
      · rw [if_neg h2, if_neg h2]
        rw [validateLoop_eq_findIdx (rs.zip as) 0]
        simp only [Nat.sub_zero]

/-- Counterexample to C4 as stated: the claimed order checks arity before
emptiness and prefers a zero-address report over a zero-amount report at
any index.  The code does the opposite on both counts: `([], [1])` yields
`EmptyBatch`, not `ArityMismatch`; and with a zero amount at index 0 and a
zero-address recipient at index 1 it yields `InvalidAmount 0`, not
`InvalidRecipient 1`. -/
theorem validateBatchTransfer_order_counterexample :
    (validateBatchTransfer [] [1] = some .EmptyBatch ∧
      validateBatchTransfer [] [1] ≠ some .ArityMismatch) ∧
    (validateBatchTransfer ["0x1111", ""] [0, 5] = some (.InvalidAmount 0) ∧
      validateBatchTransfer ["0x1111", ""] [0, 5] ≠
        some (.InvalidRecipient 1)) := by
  refine ⟨⟨by decide, by decide⟩, ⟨by decide, by decide⟩⟩

/-- A committed `batchSend` returns the identifier derived from
(timestamp, sender, token, recipient count, block number) alone: the
keccak image of `batchIdPreimage`. -/
theorem batchSend_ok_batchId (H : List Nat → Nat) (ctx : Ctx) (this : Addr)
    (t : Token) (token : Addr) (recipients : List Addr) (amounts : List Nat)
    (p : Token × Nat)
    (h : batchSend H ctx this t token recipients amounts = .ok p) :
    p.2 = H (batchIdPreimage ctx.timestamp ctx.sender token
      recipients.length ctx.blockNumber) := by
  unfold batchSend at h
  split at h
  · exact Except.noConfusion h
  split at h
  · exact Except.noConfusion h
  split at h
  · exact Except.noConfusion h
  split at h
  · exact Except.noConfusion h
  split at h
  · exact Except.noConfusion h
  split at h
  · exact Except.noConfusion h
  · obtain rfl := Except.ok.inj h
    rfl

/-- **C9** BatchId depends only on {submission time, sender, token,
recipient count, execution context}: two committed `batchSend` executions
sharing timestamp, block number, sender, token and `recipients.length`
return the identical BatchId, even with different recipient addresses,
amounts, or ledger states. -/
theorem batchId_recipient_blind (H : List Nat → Nat) (ctx : Ctx)
    (this : Addr) (t₁ t₂ : Token) (token : Addr)
    (r₁ r₂ : List Addr) (a₁ a₂ : List Nat) (p₁ p₂ : Token × Nat)
    (hlen : r₁.length = r₂.length)
    (h₁ : batchSend H ctx this t₁ token r₁ a₁ = .ok p₁)
    (h₂ : batchSend H ctx this t₂ token r₂ a₂ = .ok p₂) :
    p₁.2 = p₂.2 := by
  rw [batchSend_ok_batchId H ctx this t₁ token r₁ a₁ p₁ h₁,
    batchSend_ok_batchId H ctx this t₂ token r₂ a₂ p₂ h₂, hlen]

/-- Witness for C9: the runs behind `resW` (`recipients [2,3], amounts
[5,7]`) and `resW2` (`recipients [4,8], amounts [1,2]`) share context,
sender, token and count, and return the same BatchId. -/
theorem batchId_recipient_blind_witness : resW.2 = resW2.2 :=
  batchId_recipient_blind hSum ctxW 10 tok0 tok0 5 [2, 3] [4, 8]
    [5, 7] [1, 2] resW resW2 rfl rfl rfl

/-- **C10** `getBatchStatus` is a constant function: it returns
`completed = true` on every `bytes32` input — including identifiers never
produced by any batch — and, reading no state, its answer does not depend
on the queried identifier. -/
theorem getBatchStatus_constant :
    (∀ b, getBatchStatus b = true) ∧
    ∀ b₁ b₂, getBatchStatus b₁ = getBatchStatus b₂ :=
  ⟨fun _ => rfl, fun _ _ => rfl⟩

end Remmitt
